import Mathlib

/-!
Verification of the protocol/schema translation core of an unofficial
client library for a remote music service.

The development shallowly embeds the relevant parts of the source
(`gmusicapi/utils/jsarray.py`, `gmusicapi/protocol.py`) as executable Lean
definitions and proves the frozen claims about them.

Conventions: Python strings become `String`, Python byte strings become
`List Nat` (each element one byte), decoded JSON values become `JValue`,
Python exceptions become the `.error` branch of `Except String`.
-/

/-- A decoded JSON value, as produced by the standard JSON parser the code
calls.  Objects keep their fields as an association list. -/
inductive JValue where
  | null
  | bool (b : Bool)
  | num (n : Int)
  | str (s : String)
  | arr (items : List JValue)
  | obj (fields : List (String × JValue))

/- ------------------------------------------------------------------ -/
/- Lexical tokenizer.                                                  -/
/- `jsarray.to_json` feeds the input through the standard library       -/
/- tokenizer (`tokenize.generate_tokens`) and works on the token        -/
/- strings `t[1]`.  We embed the tokenizer for the relevant lexical     -/
/- classes: punctuation (one-character tokens), number literals,        -/
/- quoted string literals (quotes kept, contents opaque, backslash      -/
/- escapes consumed), and names.  Whitespace separates tokens and is    -/
/- not itself a token; the formal end-of-input tokens carry empty       -/
/- strings and neither change the concatenation nor can equal ",",      -/
/- so they are not modelled.                                           -/
/- ------------------------------------------------------------------ -/

/-- Lex the body of a quoted string literal (the opening quote has been
consumed).  Returns the body including the closing quote, plus the rest
of the input.  A backslash consumes the following character, so an
escaped quote does not terminate the literal. -/
def lexStringBody : List Char → List Char → Option (List Char × List Char)
  | _, [] => none
  | acc, c :: cs =>
    if c = '"' then some ((c :: acc).reverse, cs)
    else if c = '\\' then
      match cs with
      | [] => none
      | d :: ds => lexStringBody (d :: '\\' :: acc) ds
    else lexStringBody (c :: acc) cs

/-- One character of lexical whitespace. -/
def isWs (c : Char) : Bool := c = ' ' || c = '\n' || c = '\t' || c = '\r'

/-- A character that may continue a number token. -/
def isNumChar (c : Char) : Bool := c.isDigit || c = '.'

/-- Fuel-indexed tokenizer loop; each step consumes at least one input
character, so fuel `length + 1` always suffices. -/
def tokenizeAux : Nat → List Char → List String
  | 0, _ => []
  | _ + 1, [] => []
  | fuel + 1, c :: cs =>
    if isWs c then tokenizeAux fuel cs
    else if c = '"' then
      match lexStringBody [] cs with
      | some (body, rest) => String.mk ('"' :: body) :: tokenizeAux fuel rest
      | none => [String.mk ('"' :: cs)]
    else if c.isDigit then
      String.mk ((c :: cs).takeWhile isNumChar)
        :: tokenizeAux fuel ((c :: cs).dropWhile isNumChar)
    else if c.isAlpha then
      String.mk ((c :: cs).takeWhile Char.isAlpha)
        :: tokenizeAux fuel ((c :: cs).dropWhile Char.isAlpha)
    else
      String.mk [c] :: tokenizeAux fuel cs

/-- Tokenize a string into the token strings the repair loop sees. -/
def tokenize (s : String) : List String :=
  tokenizeAux (s.toList.length + 1) s.toList

/- ------------------------------------------------------------------ -/
/- jsarray.to_json (src/gmusicapi/utils/jsarray.py, lines 20-35).      -/
/- ------------------------------------------------------------------ -/

/-- One iteration of the `for t in generate_tokens(...)` loop of
`to_json`: `out` is the list of already emitted token strings; a literal
`null` token is inserted before the current token when `out` is nonempty
and its last element is a comma and the current token is a comma (double
comma), or its last element is an opening bracket and the current token
is a comma (comma opening an array). -/
def to_json_step (out : List String) (t : String) : List String :=
  if out ≠ [] ∧ ((out.getLast? = some "," ∧ t = ",")
      ∨ (out.getLast? = some "[" ∧ t = ",")) then
    out ++ ["null", t]
  else
    out ++ [t]

/-- The repaired token sequence produced by `to_json` from a token list. -/
def to_json_toks (ts : List String) : List String :=
  ts.foldl to_json_step []

/-- `jsarray.to_json`: tokenize, repair, and concatenate the tokens. -/
def to_json (s : String) : String :=
  String.join (to_json_toks (tokenize s))

/-- Follows the words of the spec: walking the token list while
remembering the immediately-preceding emitted token, insert exactly one
literal `null` token at each position where the preceding token is a
comma and the current token is a comma, or the preceding token is an
opening bracket and the current token is a comma, and at no other
position. -/
def spec_insert_nulls : Option String → List String → List String
  | _, [] => []
  | prev, t :: ts =>
    if (prev = some "," ∧ t = ",") ∨ (prev = some "[" ∧ t = ",") then
      "null" :: t :: spec_insert_nulls (some t) ts
    else
      t :: spec_insert_nulls (some t) ts

/- ------------------------------------------------------------------ -/
/- Strict JSON parsing (model of the standard `json.loads`), used by    -/
/- `jsarray.loads` on the repaired text and by the REST decoders.       -/
/- ------------------------------------------------------------------ -/

/-- Is the token a (non-negative integer) number literal? -/
def isNumTok (t : String) : Bool := !t.isEmpty && t.toList.all Char.isDigit

/-- Numeric value of a digit token. -/
def numVal (t : String) : Int :=
  Int.ofNat (t.toList.foldl (fun a c => a * 10 + (c.toNat - 48)) 0)

/-- Is the token a quoted string literal? -/
def isStrTok (t : String) : Bool := t.toList.head? = some '"'

/-- Remove the backslash of each escape sequence. -/
def unescapeChars : List Char → List Char
  | [] => []
  | '\\' :: d :: rest => d :: unescapeChars rest
  | c :: rest => c :: unescapeChars rest

/-- The string value denoted by a quoted string literal token. -/
def strVal (t : String) : String :=
  String.mk (unescapeChars ((t.toList.drop 1).dropLast))

mutual

/-- Parse one JSON value from a token list; returns the value and the
remaining tokens.  Fuel-indexed; each level consumes at least one token,
so fuel `length + 1` always suffices. -/
def parseVal : Nat → List String → Option (JValue × List String)
  | 0, _ => none
  | _ + 1, [] => none
  | fuel + 1, t :: ts =>
    if t = "null" then some (.null, ts)
    else if t = "true" then some (.bool true, ts)
    else if t = "false" then some (.bool false, ts)
    else if t = "-" then
      match ts with
      | u :: us => if isNumTok u then some (.num (-(numVal u)), us) else none
      | [] => none
    else if isNumTok t then some (.num (numVal t), ts)
    else if isStrTok t then some (.str (strVal t), ts)
    else if t = "[" then
      match ts with
      | "]" :: us => some (.arr [], us)
      | _ => parseArrElems fuel ts
    else if t = "\x7b" then
      match ts with
      | "\x7d" :: us => some (.obj [], us)
      | _ => parseObjElems fuel ts
    else none

/-- Parse the comma-separated elements of a nonempty array, including the
closing bracket. -/
def parseArrElems : Nat → List String → Option (JValue × List String)
  | 0, _ => none
  | fuel + 1, ts =>
    match parseVal fuel ts with
    | some (v, "," :: us) =>
      match parseArrElems fuel us with
      | some (.arr vs, rem) => some (.arr (v :: vs), rem)
      | _ => none
    | some (v, "]" :: us) => some (.arr [v], us)
    | _ => none

/-- Parse the comma-separated members of a nonempty object, including the
closing brace. -/
def parseObjElems : Nat → List String → Option (JValue × List String)
  | 0, _ => none
  | fuel + 1, ts =>
    match ts with
    | k :: ":" :: rest =>
      if isStrTok k then
        match parseVal fuel rest with
        | some (v, "," :: us) =>
          match parseObjElems fuel us with
          | some (.obj kvs, rem) => some (.obj ((strVal k, v) :: kvs), rem)
          | _ => none
        | some (v, "\x7d" :: us) => some (.obj [(strVal k, v)], us)
        | _ => none
      else none
    | _ => none

end

/-- `json.loads`: parse a strict JSON string, requiring the whole input
to be consumed. -/
def json_loads (s : String) : Option JValue :=
  let toks := tokenize s
  match parseVal (toks.length + 1) toks with
  | some (v, []) => some v
  | _ => none

/-- `jsarray.loads`: repair and then parse
(src/gmusicapi/utils/jsarray.py, lines 38-39). -/
def jsarray_loads (s : String) : Option JValue :=
  json_loads (to_json s)

/- ------------------------------------------------------------------ -/
/- Field expectation registry                                          -/
/- (src/gmusicapi/protocol.py, lines 81-295).                          -/
/- ------------------------------------------------------------------ -/

/-- Python `str.split(sep)`: is `sep` a leading part of `cs`? -/
def isPrefixList : List Char → List Char → Bool
  | [], _ => true
  | _ :: _, [] => false
  | a :: as, b :: bs => a = b && isPrefixList as bs

/-- Python `str.split(sep)` over character lists, fuel-indexed (each
step consumes at least one character). -/
def py_split_aux (sep : List Char) : Nat → List Char → List Char → List (List Char)
  | 0, acc, _ => [acc.reverse]
  | fuel + 1, acc, cs =>
    if isPrefixList sep cs then
      acc.reverse :: py_split_aux sep fuel [] (cs.drop sep.length)
    else
      match cs with
      | [] => [acc.reverse]
      | c :: rest => py_split_aux sep fuel (c :: acc) rest

/-- Python `s.split(sep)` for a nonempty separator. -/
def py_split (s sep : String) : List String :=
  (py_split_aux sep.toList (s.toList.length + 1) [] s.toList).map String.mk

/-- The name mangling done by `_DefinesNameMetaclass`:
`name.split("gm_")[-1]`, i.e. the part after the last occurrence of the
disambiguation marker `gm_` (lines 81-87). -/
def mangle (s : String) : String := (py_split s "gm_").getLastD s

/-- The dependent transformation functions that occur in the registry:
the identity (for `title`) and `string.lower` (for the `...Norm` keys). -/
inductive Transform where
  | ident
  | lower
deriving DecidableEq

/-- Interpretation of a `Transform`. -/
def apply_transform : Transform → String → String
  | .ident, v => v
  | .lower, v => v.toLower

/-- One `_Metadata_Expectation` subclass: the declarative expectations
for one metadata key.  Field defaults are the defaults of the abstract
base class `_Metadata_Expectation` (lines 89-142). -/
structure Expectation where
  name : String := ""
  val_type : String := "string"
  mutable : Bool := true
  allowed_values : Option (List Int) := none
  volatile : Bool := false
  depends_on : Option String := none
  dependent_transformation : Option Transform := none
  optional : Bool := false
deriving DecidableEq

/-- An attribute of the `Metadata_Expectations` class namespace: either
one of the nested `_Metadata_Expectation` subclasses, or some other
attribute (the two classmethods and the dunder attributes), for which
`issubclass` fails and `get_expectation` yields None. -/
inductive ClassAttr where
  | expectation (e : Expectation)
  | callable
deriving DecidableEq

/-- Register a nested class: the attribute name is the class name as
written; the metaclass computes the `name` attribute by mangling it. -/
def mkAttr (attrname : String) (e : Expectation) : String × ClassAttr :=
  (attrname, .expectation { e with name := mangle attrname })

/-- The attributes of `Metadata_Expectations` (lines 145-295): the
nested expectation classes in source order, plus the non-class
attributes visible through `dir()`. -/
def class_attrs : List (String × ClassAttr) := [
  ("__doc__", .callable),
  ("__module__", .callable),
  ("get_expectation", .callable),
  ("get_all_expectations", .callable),
  mkAttr "rating" { val_type := "integer", allowed_values := some [0, 1, 5] },
  mkAttr "composer" {},
  mkAttr "album" {},
  mkAttr "albumArtist" {},
  mkAttr "genre" {},
  mkAttr "name" {},
  mkAttr "artist" {},
  mkAttr "disc" { optional := true, val_type := "integer" },
  mkAttr "year" { optional := true, val_type := "integer" },
  mkAttr "track" { optional := true, val_type := "integer" },
  mkAttr "totalTracks" { optional := true, val_type := "integer" },
  mkAttr "playCount" { val_type := "integer" },
  mkAttr "totalDiscs" { optional := true, val_type := "integer" },
  mkAttr "durationMillis" { mutable := false, val_type := "integer" },
  mkAttr "comment" { mutable := false },
  mkAttr "id" { mutable := false },
  mkAttr "deleted" { mutable := false, val_type := "boolean" },
  mkAttr "creationDate" { mutable := false, val_type := "integer" },
  mkAttr "albumArtUrl" { mutable := false, optional := true },
  mkAttr "gm_type" { mutable := false, val_type := "integer" },
  mkAttr "beatsPerMinute" { mutable := false, val_type := "integer" },
  mkAttr "url" { mutable := false },
  mkAttr "playlistEntryId" { mutable := false, optional := true },
  mkAttr "title" { depends_on := some "name", dependent_transformation := some .ident },
  mkAttr "titleNorm" { depends_on := some "name", dependent_transformation := some .lower },
  mkAttr "albumArtistNorm" { depends_on := some "albumArtist", dependent_transformation := some .lower },
  mkAttr "albumNorm" { depends_on := some "album", dependent_transformation := some .lower },
  mkAttr "artistNorm" { depends_on := some "artist", dependent_transformation := some .lower },
  mkAttr "lastPlayed" { mutable := false, volatile := true, val_type := "integer" }]

/-- The `issubclass(expt, _Metadata_Expectation)` test with its
`TypeError` fallback (lines 163-167): an expectation class passes, any
other attribute yields None. -/
def attr_check : ClassAttr → Option Expectation
  | .expectation e => some e
  | .callable => none

/-- `Metadata_Expectations.get_expectation` (lines 151-167): look up the
literal attribute name, fall back to the `gm_`-prefixed variant; if the
fallback `getattr` also fails, its `AttributeError` escapes (it is
raised inside the `except` block and nothing catches it). -/
def get_expectation (key : String) : Except String (Option Expectation) :=
  match class_attrs.lookup key with
  | some a => .ok (attr_check a)
  | none =>
    match class_attrs.lookup ("gm_" ++ key) with
    | some a => .ok (attr_check a)
    | none => .error "AttributeError"

/-- `Metadata_Expectations.get_all_expectations` (lines 169-179): walk
`dir(cls)`, keep the attributes for which `get_expectation` yields an
expectation class, and key each one by its (mangled) `name` attribute. -/
def get_all_expectations : List (String × Expectation) :=
  class_attrs.filterMap (fun p =>
    match get_expectation p.1 with
    | .ok (some e) => some (e.name, e)
    | _ => none)

/- ------------------------------------------------------------------ -/
/- Schema compiler (src/gmusicapi/protocol.py, lines 132-142, 301-314). -/
/- ------------------------------------------------------------------ -/

/-- The per-field schema dictionary built by
`_Metadata_Expectation.get_schema` (lines 132-142): `none` for `blank`
or `required` means the key is absent from the dictionary. -/
structure FieldSchema where
  ty : String
  blank : Option Bool := none
  required : Option Bool := none
deriving DecidableEq

/-- `get_schema`: the type is the expected value type; string-typed
fields get `"blank": True`; optional fields get `"required": False`. -/
def get_schema (e : Expectation) : FieldSchema :=
  let s1 : FieldSchema := { ty := e.val_type }
  let s2 := if e.val_type = "string" then { s1 with blank := some true } else s1
  if e.optional then { s2 with required := some false } else s2

/-- The song object schema shape: properties plus the
`additionalProperties` switch. -/
structure ObjSchema where
  properties : List (String × FieldSchema)
  additionalProperties : Bool

/-- `WC_Protocol.song_schema` (lines 301-311): an object schema with one
property per registered expectation and `additionalProperties: False`. -/
def song_schema : ObjSchema :=
  { properties := get_all_expectations.map (fun p => (p.1, get_schema p.2)),
    additionalProperties := false }

/-- Does a JSON value conform to a declared value type?  This embeds the
type semantics of the external validator the schemas are written for: a
blank string is only accepted when the field schema sets `blank`. -/
def typeOk (ty : String) (blank : Bool) (v : JValue) : Bool :=
  if ty = "string" then
    match v with
    | .str s => blank || !(s == "")
    | _ => false
  else if ty = "integer" then
    match v with
    | .num _ => true
    | _ => false
  else if ty = "number" then
    match v with
    | .num _ => true
    | _ => false
  else if ty = "boolean" then
    match v with
    | .bool _ => true
    | _ => false
  else if ty = "object" then
    match v with
    | .obj _ => true
    | _ => false
  else if ty = "array" then
    match v with
    | .arr _ => true
    | _ => false
  else if ty = "null" then
    match v with
    | .null => true
    | _ => false
  else ty = "any"

/-- Validation of a record against an object schema, embedding the
external validator semantics the schema dictionaries are written for:
every present field must be a declared property of conforming type
(unless `additionalProperties` permits extras), and every property not
marked `"required": False` must be present. -/
def validateRecord (sch : ObjSchema) (r : List (String × JValue)) : Bool :=
  (r.all (fun kv =>
    match sch.properties.lookup kv.1 with
    | some fs => typeOk fs.ty (fs.blank.getD false) kv.2
    | none => sch.additionalProperties))
  && (sch.properties.all (fun p =>
    if p.2.required.getD true then (r.lookup p.1).isSome else true))

/- ------------------------------------------------------------------ -/
/- Content-derived identifier                                          -/
/- (src/gmusicapi/protocol.py, lines 687-692):                         -/
/-   h = hashlib.md5(file_contents).digest()                           -/
/-   h = base64.encodestring(h)[:-3]                                   -/
/- The MD5 algorithm and the base64 encoder are the standard library    -/
/- routines the code calls; they are embedded here from their           -/
/- specifications (RFC 1321 and RFC 4648; `encodestring` appends a      -/
/- newline after every 57-byte chunk of input).                        -/
/- ------------------------------------------------------------------ -/

/-- 2^32, the word modulus of MD5. -/
def w32 : Nat := 4294967296

/-- The 64 MD5 sine-table constants `K[i] = floor(abs(sin(i+1)) * 2^32)`. -/
def md5K : List Nat := [
  0xd76aa478, 0xe8c7b756, 0x242070db, 0xc1bdceee,
  0xf57c0faf, 0x4787c62a, 0xa8304613, 0xfd469501,
  0x698098d8, 0x8b44f7af, 0xffff5bb1, 0x895cd7be,
  0x6b901122, 0xfd987193, 0xa679438e, 0x49b40821,
  0xf61e2562, 0xc040b340, 0x265e5a51, 0xe9b6c7aa,
  0xd62f105d, 0x02441453, 0xd8a1e681, 0xe7d3fbc8,
  0x21e1cde6, 0xc33707d6, 0xf4d50d87, 0x455a14ed,
  0xa9e3e905, 0xfcefa3f8, 0x676f02d9, 0x8d2a4c8a,
  0xfffa3942, 0x8771f681, 0x6d9d6122, 0xfde5380c,
  0xa4beea44, 0x4bdecfa9, 0xf6bb4b60, 0xbebfbc70,
  0x289b7ec6, 0xeaa127fa, 0xd4ef3085, 0x04881d05,
  0xd9d4d039, 0xe6db99e5, 0x1fa27cf8, 0xc4ac5665,
  0xf4292244, 0x432aff97, 0xab9423a7, 0xfc93a039,
  0x655b59c3, 0x8f0ccc92, 0xffeff47d, 0x85845dd1,
  0x6fa87e4f, 0xfe2ce6e0, 0xa3014314, 0x4e0811a1,
  0xf7537e82, 0xbd3af235, 0x2ad7d2bb, 0xeb86d391]

/-- The 64 MD5 per-round left-rotation amounts. -/
def md5S : List Nat := [
  7, 12, 17, 22, 7, 12, 17, 22, 7, 12, 17, 22, 7, 12, 17, 22,
  5, 9, 14, 20, 5, 9, 14, 20, 5, 9, 14, 20, 5, 9, 14, 20,
  4, 11, 16, 23, 4, 11, 16, 23, 4, 11, 16, 23, 4, 11, 16, 23,
  6, 10, 15, 21, 6, 10, 15, 21, 6, 10, 15, 21, 6, 10, 15, 21]

/-- Left rotation of a 32-bit word. -/
def leftrot (x n : Nat) : Nat := ((x <<< n) ||| (x >>> (32 - n))) % w32

/-- Bitwise complement of a 32-bit word. -/
def not32 (x : Nat) : Nat := x ^^^ (w32 - 1)

/-- The MD5 round function for operation `i`. -/
def md5F (i b c d : Nat) : Nat :=
  if i < 16 then (b &&& c) ||| (not32 b &&& d)
  else if i < 32 then (d &&& b) ||| (not32 d &&& c)
  else if i < 48 then b ^^^ c ^^^ d
  else c ^^^ (b ||| not32 d)

/-- The message-word index used by operation `i`. -/
def md5G (i : Nat) : Nat :=
  if i < 16 then i
  else if i < 32 then (5 * i + 1) % 16
  else if i < 48 then (3 * i + 5) % 16
  else (7 * i) % 16

/-- One of the 64 MD5 operations on the running state `(a, b, c, d)`,
over the 16 words `m` of the current block. -/
def md5Op (m : List Nat) (st : Nat × Nat × Nat × Nat) (i : Nat) :
    Nat × Nat × Nat × Nat :=
  match st with
  | (a, b, c, d) =>
    let f := (md5F i b c d + a + md5K.getD i 0 + m.getD (md5G i) 0) % w32
    (d, (b + leftrot f (md5S.getD i 0)) % w32, b, c)

/-- Fuel-indexed worker for `chunkList`; for positive `n`, each step
consumes at least one byte. -/
def chunkListAux (n : Nat) : Nat → List Nat → List (List Nat)
  | 0, _ => []
  | _ + 1, [] => []
  | fuel + 1, b :: bs => (b :: bs).take n :: chunkListAux n fuel ((b :: bs).drop n)

/-- Split a byte list into chunks of `n` bytes (the last chunk may be
shorter); `n` is positive at every use. -/
def chunkList (n : Nat) (bs : List Nat) : List (List Nat) :=
  chunkListAux n (bs.length + 1) bs

/-- Interpret 4 bytes as a little-endian 32-bit word. -/
def wordOfBytes (bs : List Nat) : Nat :=
  bs.getD 0 0 + bs.getD 1 0 * 256 + bs.getD 2 0 * 65536 + bs.getD 3 0 * 16777216

/-- Serialize a 32-bit word as 4 little-endian bytes. -/
def bytesOfWord (x : Nat) : List Nat :=
  [x % 256, x / 256 % 256, x / 65536 % 256, x / 16777216 % 256]

/-- Process one 64-byte block, updating the four MD5 state words. -/
def md5Block (st : Nat × Nat × Nat × Nat) (block : List Nat) :
    Nat × Nat × Nat × Nat :=
  let m := (chunkList 4 block).map wordOfBytes
  match st, (List.range 64).foldl (md5Op m) st with
  | (a0, b0, c0, d0), (a, b, c, d) =>
    ((a0 + a) % w32, (b0 + b) % w32, (c0 + c) % w32, (d0 + d) % w32)

/-- MD5 padding: append `0x80`, then zero bytes until the length is 56
modulo 64, then the bit length of the message as 8 little-endian bytes. -/
def md5Pad (msg : List Nat) : List Nat :=
  let len := msg.length
  let zeros := (119 - len % 64) % 64
  msg ++ [128] ++ List.replicate zeros 0
      ++ (List.range 8).map (fun i => (len * 8) >>> (8 * i) % 256)

/-- The MD5 digest of a byte string: 16 bytes. -/
def md5 (msg : List Nat) : List Nat :=
  let st := (chunkList 64 (md5Pad msg)).foldl md5Block
      (0x67452301, 0xefcdab89, 0x98badcfe, 0x10325476)
  bytesOfWord st.1 ++ bytesOfWord st.2.1 ++ bytesOfWord st.2.2.1 ++ bytesOfWord st.2.2.2

/-- The base64 alphabet. -/
def b64Alphabet : List Char :=
  ['A', 'B', 'C', 'D', 'E', 'F', 'G', 'H', 'I', 'J', 'K', 'L', 'M',
   'N', 'O', 'P', 'Q', 'R', 'S', 'T', 'U', 'V', 'W', 'X', 'Y', 'Z',
   'a', 'b', 'c', 'd', 'e', 'f', 'g', 'h', 'i', 'j', 'k', 'l', 'm',
   'n', 'o', 'p', 'q', 'r', 's', 't', 'u', 'v', 'w', 'x', 'y', 'z',
   '0', '1', '2', '3', '4', '5', '6', '7', '8', '9', '+', '/']

/-- Alphabet character for a 6-bit group. -/
def b64Char (i : Nat) : Char := b64Alphabet.getD (i % 64) 'A'

/-- Standard base64 encoding of a byte string, with `=` padding. -/
def base64encode : List Nat → List Char
  | b1 :: b2 :: b3 :: rest =>
    b64Char (b1 / 4) :: b64Char (b1 % 4 * 16 + b2 / 16)
      :: b64Char (b2 % 16 * 4 + b3 / 64) :: b64Char (b3 % 64)
      :: base64encode rest
  | [b1, b2] =>
    [b64Char (b1 / 4), b64Char (b1 % 4 * 16 + b2 / 16),
     b64Char (b2 % 16 * 4), '=']
  | [b1] =>
    [b64Char (b1 / 4), b64Char (b1 % 4 * 16), '=', '=']
  | [] => []

/-- `base64.encodestring`: encode 57-byte chunks of the input, appending
a newline after each encoded chunk. -/
def encodestring (bs : List Nat) : List Char :=
  ((chunkList 57 bs).map (fun chunk => base64encode chunk ++ ['\n'])).flatten

/-- The content-derived identifier of lines 687-692: the MD5 digest of
the raw file bytes, passed through `base64.encodestring`, with the last
three characters (`=`, `=`, the newline) removed by the `[:-3]` slice.
A pure function of the caller-supplied bytes. -/
def identifierFor (fileBytes : List Nat) : List Char :=
  let h := encodestring (md5 fileBytes)
  h.take (h.length - 3)

/- ------------------------------------------------------------------ -/
/- REST/JSON protocol: mutation reconciliation and kind dispatch       -/
/- (src/gmusicapi/protocol.py, lines 791-903).                         -/
/- ------------------------------------------------------------------ -/

/-- `mutation["response_code"]`: a key access that raises on a
missing key or a non-dictionary entry; both raises are modelled as
`none` here and turned into errors by the loop. -/
def entry_code (m : JValue) : Option JValue :=
  match m with
  | .obj kvs => kvs.lookup "response_code"
  | _ => none

/-- `mutation["id"]` when present (`if "id" in mutation`). -/
def entry_id (m : JValue) : Option JValue :=
  match m with
  | .obj kvs => kvs.lookup "id"
  | _ => none

/-- The comparison `mutation["response_code"] != "OK"`, negated: only
the string `"OK"` compares equal. -/
def code_is_ok (v : JValue) : Bool :=
  match v with
  | .str s => s == "OK"
  | _ => false

/-- The `for mutation in mutations` loop of `_handle_mutate_response`
(lines 836-843): raise unless every `response_code` is the string
`"OK"`, collecting the present `id` values in order. -/
def mutate_loop : List JValue → List JValue → Except String (List JValue)
  | acc, [] => .ok acc
  | acc, m :: ms =>
    match m with
    | .obj kvs =>
      match kvs.lookup "response_code" with
      | some v =>
        if code_is_ok v then
          match kvs.lookup "id" with
          | some i => mutate_loop (acc ++ [i]) ms
          | none => mutate_loop acc ms
        else .error "ValueError"
      | none => .error "KeyError"
    | _ => .error "TypeError"

/-- The result of `_handle_mutate_response`: the Python function returns
either the boolean True or the list of ids. -/
inductive MutateOut where
  | succ
  | ids (l : List JValue)

/-- `SJ_Protocol._handle_mutate_response` (lines 832-845). -/
def handle_mutate_response (jsobj : List (String × JValue)) : Except String MutateOut :=
  match jsobj.lookup "mutate_response" with
  | none => .ok .succ
  | some (.arr ms) => (mutate_loop [] ms).map .ids
  | some _ => .error "TypeError"

/-- Modelled from the spec: the response model classes (`Track`,
`TrackList`, `Playlist`, `PlaylistList`, `PlaylistEntry`,
`PlaylistEntryList`) live in a `models` module that is not under `src/`;
the spec requires six record/collection variants, one per entity family
and arity. -/
inductive SJModelType where
  | track
  | trackList
  | playlist
  | playlistList
  | playlistEntry
  | playlistEntryList
deriving DecidableEq

/-- Modelled from the spec: each model class reports a distinct literal
`kind` discriminator string; the exact literals are private to the
missing `models` module, so representative distinct strings are used. -/
def model_kind : SJModelType → String
  | .track => "sj#track"
  | .trackList => "sj#trackList"
  | .playlist => "sj#playlist"
  | .playlistList => "sj#playlistList"
  | .playlistEntry => "sj#playlistEntry"
  | .playlistEntryList => "sj#playlistEntryList"

/-- The six recognized kind strings. -/
def supported_kinds : List String :=
  [SJModelType.track, .trackList, .playlist, .playlistList,
   .playlistEntry, .playlistEntryList].map model_kind

/-- `SJ_Protocol._kind_to_model` (lines 847-861): the if/elif chain over
the six `kind()` strings, raising `ValueError` on anything else.  The
scrutinee is whatever `jsdata["kind"]` held; a non-string value compares
unequal to every kind string and therefore also raises. -/
def kind_to_model (kind : JValue) : Except String SJModelType :=
  match kind with
  | .str s =>
    if s = model_kind .track then .ok .track
    else if s = model_kind .trackList then .ok .trackList
    else if s = model_kind .playlist then .ok .playlist
    else if s = model_kind .playlistList then .ok .playlistList
    else if s = model_kind .playlistEntry then .ok .playlistEntry
    else if s = model_kind .playlistEntryList then .ok .playlistEntryList
    else .error "ValueError"
  | _ => .error "ValueError"

/-- `jsdata["kind"]`: key access on the decoded response. -/
def jget (v : JValue) (k : String) : Except String JValue :=
  match v with
  | .obj kvs =>
    match kvs.lookup k with
    | some x => .ok x
    | none => .error "KeyError"
  | _ => .error "TypeError"

/-- Modelled from the spec: a list model wraps the decoded response and
exposes the list of item records under its `items` attribute. -/
def model_items (jsdata : JValue) : List JValue :=
  match jget jsdata "items" with
  | .ok (.arr l) => l
  | _ => []

/-- What a family decoder hands back: the single-item model wrapping the
whole decoded response, or the item list of a list model.  The Python
functions return the model object, the `items` list, or (silently) None,
modelled by `Option DecodeOut`. -/
inductive DecodeOut where
  | single (v : JValue)
  | items (l : List JValue)

/-- `SJ_Protocol.tracks` (lines 863-870) after `json.loads`: dispatch on
the kind, return the item list for a `TrackList`, the model for a
`Track`, and fall off the end (None) for every other model type. -/
def tracks_obj (jsdata : JValue) : Except String (Option DecodeOut) := do
  let kv ← jget jsdata "kind"
  let m ← kind_to_model kv
  match m with
  | .trackList => pure (some (.items (model_items jsdata)))
  | .track => pure (some (.single jsdata))
  | _ => pure none

/-- `SJ_Protocol.tracks`, including the `json.loads` step. -/
def sj_tracks (response : String) : Except String (Option DecodeOut) :=
  match json_loads response with
  | some jsdata => tracks_obj jsdata
  | none => .error "JSONDecodeError"

/-- `SJ_Protocol.playlists` (lines 872-880): same shape for the playlist
family. -/
def playlists_obj (jsdata : JValue) : Except String (Option DecodeOut) := do
  let kv ← jget jsdata "kind"
  let m ← kind_to_model kv
  match m with
  | .playlistList => pure (some (.items (model_items jsdata)))
  | .playlist => pure (some (.single jsdata))
  | _ => pure none

/-- `SJ_Protocol.playlist_entries` (lines 882-890): same shape for the
playlist-entry family. -/
def playlist_entries_obj (jsdata : JValue) : Except String (Option DecodeOut) := do
  let kv ← jget jsdata "kind"
  let m ← kind_to_model kv
  match m with
  | .playlistEntryList => pure (some (.items (model_items jsdata)))
  | .playlistEntry => pure (some (.single jsdata))
  | _ => pure none

/- ------------------------------------------------------------------ -/
/- Music Manager protocol (src/gmusicapi/protocol.py, lines 44-47,     -/
/- 598-632, 652-732, 735-788).                                         -/
/- ------------------------------------------------------------------ -/

/-- Line 44: `supported_filetypes = ("mp3")`.  The parenthesized
expression has no trailing comma, so it is the plain string "mp3", not
a one-element tuple. -/
def supported_filetypes : String := "mp3"

/-- Python `needle in hay` on strings: a substring test. -/
def py_str_in (needle hay : String) : Bool :=
  (List.range (hay.toList.length + 1)).any
    (fun i => (hay.toList.drop i).take needle.toList.length == needle.toList)

/-- Python `filename.split(".")[-1]`: the part after the last dot (the
whole name when there is no dot). -/
def py_extension (filename : String) : String :=
  (py_split filename ".").getLastD filename

/-- The per-file gate of `make_metadata_request` (lines 661-663):
`if not filename.split(".")[-1] in supported_filetypes: raise
UnsupportedFiletype(...)`.  Because `supported_filetypes` is a string,
the `in` is a substring test. -/
def check_filetype (filename : String) : Except String Unit :=
  if !py_str_in (py_extension filename) supported_filetypes then
    .error "UnsupportedFiletype"
  else
    .ok ()

/-- Lower-case hexadecimal digits of a natural number, most significant
first (`hex(n)` without prefix; `hex(0)` is "0x0"). -/
def hexDigits (n : Nat) : List Char := Nat.toDigits 16 n

/-- Python 2 `hex(getmac())` for a long integer: the `0x` prefix, the
lower-case digits, and the trailing `L` type suffix. -/
def py_hex_long (n : Nat) : List Char := '0' :: 'x' :: hexDigits n ++ ['L']

/-- Python slice `s[x:x+2]` over a character list. -/
def py_slice2 (cs : List Char) (x : Nat) : List Char := (cs.drop x).take 2

/-- Python `':'.join(pieces)`. -/
def py_join_colon (pieces : List (List Char)) : List Char :=
  match pieces with
  | [] => []
  | p :: ps => p ++ (ps.map (fun q => ':' :: q)).flatten

/-- `MM_Protocol.__init__` lines 603-604: `self.mac =
hex(getmac())[2:-1]` then `':'.join([self.mac[x:x+2] for x in
range(0, 10, 2)])`.  `[2:-1]` drops the `0x` prefix and the final
character; `range(0, 10, 2)` yields the five offsets 0, 2, 4, 6, 8. -/
def mac_string (mac : Nat) : List Char :=
  let digits := (py_hex_long mac).drop 2
  let digits := digits.take (digits.length - 1)
  py_join_colon ([0, 2, 4, 6, 8].map (py_slice2 digits))

/-- A value inlined into the upload-session payload: the code inlines
both strings and numbers and serializes each with `str()`. -/
inductive PyVal where
  | s (v : String)
  | i (v : Int)

/-- Python `str()` of an inlined value. -/
def py_str : PyVal → String
  | .s v => v
  | .i v => toString v

/-- One field of the `createSessionRequest.fields` list: either the
single `"external"` file descriptor or an `"inlined"` key/value pair
whose content is the `str()` form of the value. -/
inductive SessionField where
  | external (filename name : String) (size : Nat)
  | inlined (content name : String)

/-- Is this the external field? -/
def SessionField.isExternal : SessionField → Bool
  | .external _ _ _ => true
  | .inlined _ _ => false

/-- One accepted upload in the server metadata-acceptance response:
`upload.id` and `upload.serverId`. -/
structure Upload where
  id : String
  serverId : String

/-- What the filesystem and the tag reader supply for one local file:
basename, absolute path, size, the title value used by the session
builder, and bitrate.  These come from external collaborators
(`os.path`, mutagen); the builder is a pure function of them. -/
structure UploadFile where
  basename : String
  abspath : String
  size : Nat
  title : String
  bitrate : Int

/-- The dictionary of inlined values built at lines 750-761, in source
order. -/
def inlined_values (upload : Upload) (total : Nat) (f : UploadFile) (mac : String) :
    List (String × PyVal) :=
  [("title", .s "jumper-uploader-title-42"),
   ("ClientId", .s upload.id),
   ("ClientTotalSongCount", .i (Int.ofNat total)),
   ("CurrentTotalUploadedCount", .s "0"),
   ("CurrentUploadingTrack", .s f.title),
   ("ServerId", .s upload.serverId),
   ("SyncNow", .s "true"),
   ("TrackBitRate", .i f.bitrate),
   ("TrackDoNotRematch", .s "false"),
   ("UploaderId", .s mac)]

/-- The `createSessionRequest.fields` list for one upload (lines
762-784): the single external descriptor followed by one inlined field
per entry of the `inlined` dictionary, each content passed through
`str()`. -/
def session_fields (upload : Upload) (total : Nat) (f : UploadFile) (mac : String) :
    List SessionField :=
  .external f.basename f.abspath f.size
    :: (inlined_values upload total f mac).map
      (fun kv => .inlined (py_str kv.2) kv.1)

/-- The `for upload in server_response.response.uploads` loop of
`make_upload_session_requests`: one `(filename, serverId, payload)`
triple per accepted upload, in response order; a missing `filemap` entry
raises `KeyError`.  `total` is `len(server_response.response.uploads)`. -/
def sessions_aux (filemap : List (String × String)) (total : Nat)
    (fileinfo : String → UploadFile) (mac : String) :
    List Upload → Except String (List (String × String × List SessionField))
  | [] => .ok []
  | upload :: rest =>
    match filemap.lookup upload.id with
    | none => .error "KeyError"
    | some filename =>
      match sessions_aux filemap total fileinfo mac rest with
      | .ok sessions =>
        .ok ((filename, upload.serverId,
          session_fields upload total (fileinfo filename) mac) :: sessions)
      | .error e => .error e

/-- `MM_Protocol.make_upload_session_requests` (lines 735-788).
`fileinfo` stands for the filesystem/tag collaborators consulted per
file. -/
def make_upload_session_requests (filemap : List (String × String))
    (uploads : List Upload) (fileinfo : String → UploadFile) (mac : String) :
    Except String (List (String × String × List SessionField)) :=
  sessions_aux filemap uploads.length fileinfo mac uploads
theorem to_json_foldl (ts : List String) : ∀ acc : List String,
    List.foldl to_json_step acc ts = acc ++ spec_insert_nulls acc.getLast? ts := by
  induction ts with
  | nil => intro acc; simp [spec_insert_nulls]
  | cons t ts ih =>
    intro acc
    rw [List.foldl_cons, ih]
    by_cases hc : (acc.getLast? = some "," ∧ t = ",") ∨ (acc.getLast? = some "[" ∧ t = ",")
    · have hacc : acc ≠ [] := by
        rcases hc with ⟨h1, _⟩ | ⟨h1, _⟩ <;> intro h <;> subst h <;> simp at h1
      rw [show to_json_step acc t = acc ++ ["null", t] from if_pos ⟨hacc, hc⟩]
      have hlast : (acc ++ ["null", t]).getLast? = some t := by
        rw [show acc ++ ["null", t] = (acc ++ ["null"]) ++ [t] by simp]
        exact List.getLast?_concat _
      rw [hlast]
      rw [show spec_insert_nulls acc.getLast? (t :: ts)
            = "null" :: t :: spec_insert_nulls (some t) ts from by
        unfold spec_insert_nulls; rw [if_pos hc]; cases ts <;> rfl]
      simp
    · rw [show to_json_step acc t = acc ++ [t] from
        if_neg (fun h => hc h.2)]
      have hlast : (acc ++ [t]).getLast? = some t := List.getLast?_concat _
      rw [hlast]
      rw [show spec_insert_nulls acc.getLast? (t :: ts)
            = t :: spec_insert_nulls (some t) ts from by
        unfold spec_insert_nulls; rw [if_neg hc]; cases ts <;> rfl]
      simp

/-- Claim C1: repair-and-parse inserts exactly one literal null token at
each elided position (previous emitted token a comma and current a comma,
or previous an opening bracket and current a comma) and at no other
position; repairing "[1,,2]" parses to [1, null, 2] and "[,1]" to
[null, 1], and commas inside quoted string literals never trigger a
repair. -/
theorem claim_C1 :
    (∀ ts : List String, to_json_toks ts = spec_insert_nulls none ts)
    ∧ jsarray_loads "[1,,2]" = some (.arr [.num 1, .null, .num 2])
    ∧ jsarray_loads "[,1]" = some (.arr [.null, .num 1])
    ∧ to_json "[\"a,,b\",,1]" = "[\"a,,b\",null,1]"
    ∧ jsarray_loads "[\"a,,b\"]" = some (.arr [.str "a,,b"]) := by
  refine ⟨fun ts => ?_, rfl, rfl, rfl, rfl⟩
  simpa using to_json_foldl ts []
theorem lookup_eq_none {α : Type} : ∀ (l : List (String × α)) (k : String),
    k ∉ l.map Prod.fst → List.lookup k l = none := by
  intro l k h
  induction l with
  | nil => rfl
  | cons p l ih =>
    obtain ⟨a, b⟩ := p
    simp only [List.map_cons, List.mem_cons] at h
    push_neg at h
    obtain ⟨h1, h2⟩ := h
    have hba : (k == a) = false := beq_eq_false_iff_ne.mpr h1
    simp [List.lookup, hba, ih h2]

theorem get_schema_ty (e : Expectation) : (get_schema e).ty = e.val_type := by
  unfold get_schema
  dsimp only
  split <;> split <;> rfl

theorem get_schema_blank (e : Expectation) (h : e.val_type = "string") :
    (get_schema e).blank = some true := by
  unfold get_schema
  dsimp only
  rw [if_pos h]
  split <;> rfl

theorem get_schema_required (e : Expectation) (h : e.optional = true) :
    (get_schema e).required = some false := by
  unfold get_schema
  dsimp only
  rw [if_pos h]

theorem song_schema_keys :
    song_schema.properties.map Prod.fst = get_all_expectations.map Prod.fst := by
  simp [song_schema, List.map_map, Function.comp]

/-- Claim C2: the compiled song record schema has exactly the registry
keys as its property set, string-typed properties permit the empty
string, optional expectations are not required, additional properties
are forbidden, and validation rejects every record containing a field
name absent from the registry. -/
theorem claim_C2 :
    song_schema.properties.map Prod.fst = get_all_expectations.map Prod.fst
    ∧ (∀ p ∈ get_all_expectations, p.2.val_type = "string" →
        (p.1, get_schema p.2) ∈ song_schema.properties
        ∧ (get_schema p.2).blank = some true)
    ∧ typeOk "string" true (.str "") = true
    ∧ (∀ p ∈ get_all_expectations, p.2.optional = true →
        (p.1, get_schema p.2) ∈ song_schema.properties
        ∧ (get_schema p.2).required = some false)
    ∧ song_schema.additionalProperties = false
    ∧ (∀ (r : List (String × JValue)) (k : String) (v : JValue),
        (k, v) ∈ r → k ∉ get_all_expectations.map Prod.fst →
        validateRecord song_schema r = false) := by
  refine ⟨song_schema_keys, ?_, rfl, ?_, rfl, ?_⟩
  · intro p hp hty
    exact ⟨List.mem_map_of_mem _ hp, get_schema_blank _ hty⟩
  · intro p hp hopt
    exact ⟨List.mem_map_of_mem _ hp, get_schema_required _ hopt⟩
  · intro r k v hmem hk
    have hnone : List.lookup k song_schema.properties = none := by
      apply lookup_eq_none
      rw [song_schema_keys]
      exact hk
    unfold validateRecord
    have hall : r.all (fun kv =>
        match List.lookup kv.1 song_schema.properties with
        | some fs => typeOk fs.ty (fs.blank.getD false) kv.2
        | none => song_schema.additionalProperties) = false := by
      apply List.all_eq_false.mpr
      refine ⟨(k, v), hmem, ?_⟩
      simp only [hnone]
      decide
    rw [hall]
    rfl

theorem claim_C2_witness :
    (get_schema { name := "composer" }).blank = some true
    ∧ (get_schema { name := "disc", val_type := "integer", optional := true }).required = some false
    ∧ validateRecord song_schema [("bogus", JValue.str "x")] = false :=
  ⟨(claim_C2.2.1 ("composer", { name := "composer" }) (by decide) rfl).2,
   (claim_C2.2.2.2.1 ("disc", { name := "disc", val_type := "integer", optional := true })
      (by decide) rfl).2,
   claim_C2.2.2.2.2.2 [("bogus", JValue.str "x")] "bogus" (JValue.str "x")
      (List.Mem.head _) (by decide)⟩

/-- Claim C6: `get_expectation` returns the expectation registered under
the literal name when one exists, otherwise the `gm_`-prefixed variant
when one exists; but for a name with neither attribute the fallback
`getattr` raises `AttributeError` out of the `except` block instead of
returning None, so the lookup is not total (code bug: the docstring
promises None). -/
theorem claim_C6_eval :
    get_expectation "rating"
      = .ok (some { name := "rating", val_type := "integer", allowed_values := some [0, 1, 5] })
    ∧ get_expectation "type"
      = .ok (some { name := "type", val_type := "integer", mutable := false })
    ∧ get_expectation "__doc__" = .ok none
    ∧ get_expectation "bogus" = .error "AttributeError" :=
  ⟨rfl, rfl, rfl, rfl⟩
theorem chunkListAux_nil (n fuel : Nat) : chunkListAux n fuel [] = [] := by
  cases fuel <;> rfl

theorem chunk_single (n : Nat) (bs : List Nat) (h1 : bs ≠ []) (h2 : bs.length ≤ n) :
    chunkList n bs = [bs] := by
  cases bs with
  | nil => exact absurd rfl h1
  | cons b bs' =>
    unfold chunkList
    rw [show (b :: bs').length + 1 = bs'.length + 1 + 1 from by simp]
    unfold chunkListAux
    rw [List.take_of_length_le h2, List.drop_eq_nil_of_le h2, chunkListAux_nil]

theorem md5_length (bs : List Nat) : (md5 bs).length = 16 := by
  simp [md5, bytesOfWord]

theorem b64Char_mem (i : Nat) : b64Char i ∈ b64Alphabet := by
  unfold b64Char
  have h : i % 64 < b64Alphabet.length := by
    rw [show b64Alphabet.length = 64 from rfl]
    exact Nat.mod_lt i (by norm_num)
  rw [List.getD_eq_getElem _ _ h]
  exact List.getElem_mem h

theorem base64_shape : ∀ bs : List Nat, bs.length % 3 = 1 →
    ∃ cs, base64encode bs = cs ++ ['=', '=']
      ∧ cs.length = bs.length / 3 * 4 + 2
      ∧ ∀ c ∈ cs, c ∈ b64Alphabet := by
  intro bs
  induction bs using base64encode.induct with
  | case1 b1 b2 b3 rest ih =>
    intro h
    simp only [List.length_cons] at h
    have h3 : rest.length % 3 = 1 := by omega
    obtain ⟨cs, hcs, hlen, hmem⟩ := ih h3
    refine ⟨b64Char (b1 / 4) :: b64Char (b1 % 4 * 16 + b2 / 16)
        :: b64Char (b2 % 16 * 4 + b3 / 64) :: b64Char (b3 % 64) :: cs, ?_, ?_, ?_⟩
    · simp [base64encode, hcs]
    · simp only [List.length_cons, hlen]
      omega
    · intro c hc
      simp only [List.mem_cons] at hc
      rcases hc with rfl | rfl | rfl | rfl | hc
      · exact b64Char_mem _
      · exact b64Char_mem _
      · exact b64Char_mem _
      · exact b64Char_mem _
      · exact hmem c hc
  | case2 b1 b2 =>
    intro h
    simp only [List.length_cons, List.length_nil] at h
    omega
  | case3 b1 =>
    intro _
    refine ⟨[b64Char (b1 / 4), b64Char (b1 % 4 * 16)], rfl, by simp, ?_⟩
    intro c hc
    simp only [List.mem_cons, List.not_mem_nil, or_false] at hc
    rcases hc with rfl | rfl
    · exact b64Char_mem _
    · exact b64Char_mem _
  | case4 =>
    intro h
    simp at h

/-- Claim C3: the content-derived identifier is the base64 encoding of
the MD5 digest of the raw file bytes with the trailing padding stripped;
being a Lean function of the byte list it is a pure function of the file
bytes alone, and its output is always exactly 22 characters with no
trailing (indeed no) padding character. -/
theorem claim_C3 (bs : List Nat) :
    base64encode (md5 bs) = identifierFor bs ++ ['=', '=']
    ∧ (identifierFor bs).length = 22
    ∧ '=' ∉ identifierFor bs := by
  have hlen : (md5 bs).length = 16 := md5_length bs
  have h1 : (md5 bs).length % 3 = 1 := by rw [hlen]
  obtain ⟨cs, hcs, hcl, hmem⟩ := base64_shape (md5 bs) h1
  have hcl22 : cs.length = 22 := by rw [hcl, hlen]
  have hmd5ne : md5 bs ≠ [] := by
    intro h
    rw [h] at hlen
    simp at hlen
  have hchunk : chunkList 57 (md5 bs) = [md5 bs] :=
    chunk_single 57 (md5 bs) hmd5ne (by omega)
  have hfull : encodestring (md5 bs) = cs ++ ['=', '=', '\n'] := by
    unfold encodestring
    rw [hchunk]
    simp [hcs]
  have hflen : (encodestring (md5 bs)).length = 25 := by
    rw [hfull]
    simp [hcl22]
  have hid : identifierFor bs = cs := by
    show List.take ((encodestring (md5 bs)).length - 3) (encodestring (md5 bs)) = cs
    rw [hflen, hfull, show 25 - 3 = 22 from rfl, ← hcl22]
    exact List.take_left cs ['=', '=', '\n']
  refine ⟨by rw [hcs, hid], by rw [hid, hcl22], ?_⟩
  rw [hid]
  intro hin
  exact absurd (hmem '=' hin) (by decide)
theorem entry_code_ok_shape (m : JValue) (h : entry_code m = some (.str "OK")) :
    ∃ kvs, m = .obj kvs ∧ kvs.lookup "response_code" = some (.str "OK") := by
  cases m with
  | obj kvs => exact ⟨kvs, rfl, by simpa [entry_code] using h⟩
  | null => simp [entry_code] at h
  | bool b => simp [entry_code] at h
  | num n => simp [entry_code] at h
  | str s => simp [entry_code] at h
  | arr l => simp [entry_code] at h

theorem mutate_loop_ok (ms : List JValue) :
    ∀ acc, (∀ m ∈ ms, entry_code m = some (.str "OK")) →
    mutate_loop acc ms = .ok (acc ++ ms.filterMap entry_id) := by
  induction ms with
  | nil => intro acc _; simp [mutate_loop]
  | cons m ms ih =>
    intro acc h
    obtain ⟨kvs, rfl, hlk⟩ := entry_code_ok_shape m (h m (List.mem_cons_self m ms))
    have htail : ∀ x ∈ ms, entry_code x = some (.str "OK") :=
      fun x hx => h x (List.mem_cons_of_mem _ hx)
    cases hid : kvs.lookup "id" with
    | some i =>
      rw [show mutate_loop acc (JValue.obj kvs :: ms) = mutate_loop (acc ++ [i]) ms from by
        simp [mutate_loop, hlk, hid, code_is_ok]]
      rw [ih (acc ++ [i]) htail]
      simp [List.filterMap_cons, entry_id, hid]
    | none =>
      rw [show mutate_loop acc (JValue.obj kvs :: ms) = mutate_loop acc ms from by
        simp [mutate_loop, hlk, hid, code_is_ok]]
      rw [ih acc htail]
      simp [List.filterMap_cons, entry_id, hid]

theorem code_is_ok_false (v : JValue) (hne : v ≠ .str "OK") :
    code_is_ok v = false := by
  unfold code_is_ok
  cases v with
  | str s =>
    simp only [beq_eq_false_iff_ne]
    intro hs
    exact hne (by rw [hs])
  | null => rfl
  | bool b => rfl
  | num n => rfl
  | arr l => rfl
  | obj o => rfl

theorem mutate_loop_err (ms : List JValue) :
    ∀ acc, (∃ m ∈ ms, entry_code m ≠ some (.str "OK")) →
    ∃ e, mutate_loop acc ms = .error e := by
  induction ms with
  | nil =>
    intro acc h
    obtain ⟨m, hm, _⟩ := h
    exact absurd hm (List.not_mem_nil m)
  | cons m ms ih =>
    intro acc h
    obtain ⟨b, hb, hbc⟩ := h
    by_cases hm : entry_code m = some (.str "OK")
    · have hbms : b ∈ ms := by
        rcases List.mem_cons.mp hb with rfl | hx
        · exact absurd hm hbc
        · exact hx
      obtain ⟨kvs, rfl, hlk⟩ := entry_code_ok_shape m hm
      cases hid : kvs.lookup "id" with
      | some i =>
        rw [show mutate_loop acc (JValue.obj kvs :: ms) = mutate_loop (acc ++ [i]) ms from by
          simp [mutate_loop, hlk, hid, code_is_ok]]
        exact ih (acc ++ [i]) ⟨b, hbms, hbc⟩
      | none =>
        rw [show mutate_loop acc (JValue.obj kvs :: ms) = mutate_loop acc ms from by
          simp [mutate_loop, hlk, hid, code_is_ok]]
        exact ih acc ⟨b, hbms, hbc⟩
    · cases m with
      | obj kvs =>
        cases hc : kvs.lookup "response_code" with
        | none => exact ⟨"KeyError", by simp [mutate_loop, hc]⟩
        | some v =>
          have hvne : v ≠ JValue.str "OK" := by
            intro hveq
            exact hm (by simp [entry_code, hc, hveq])
          exact ⟨"ValueError", by simp [mutate_loop, hc, code_is_ok_false v hvne]⟩
      | null => exact ⟨"TypeError", by simp [mutate_loop]⟩
      | bool b2 => exact ⟨"TypeError", by simp [mutate_loop]⟩
      | num n => exact ⟨"TypeError", by simp [mutate_loop]⟩
      | str s => exact ⟨"TypeError", by simp [mutate_loop]⟩
      | arr l => exact ⟨"TypeError", by simp [mutate_loop]⟩

/-- Claim C4: reconciliation of a decoded batch-mutation response
returns success when there is no mutate_response key; raises for the
whole batch when any entry response_code is not the string OK (a
missing or non-string code also raises); and otherwise returns the ids
of the entries that have one, in response order. -/
theorem claim_C4 (jsobj : List (String × JValue)) :
    (jsobj.lookup "mutate_response" = none → handle_mutate_response jsobj = .ok .succ)
    ∧ (∀ entries : List JValue, jsobj.lookup "mutate_response" = some (.arr entries) →
        ((∃ m ∈ entries, entry_code m ≠ some (.str "OK")) →
          ∃ e, handle_mutate_response jsobj = .error e)
        ∧ ((∀ m ∈ entries, entry_code m = some (.str "OK")) →
          handle_mutate_response jsobj = .ok (.ids (entries.filterMap entry_id)))) := by
  constructor
  · intro h
    simp [handle_mutate_response, h]
  · intro entries hlook
    constructor
    · intro hex
      obtain ⟨e, he⟩ := mutate_loop_err entries [] hex
      exact ⟨e, by simp [handle_mutate_response, hlook, he, Except.map]⟩
    · intro hall
      rw [show handle_mutate_response jsobj = (mutate_loop [] entries).map .ids from by
        simp [handle_mutate_response, hlook]]
      rw [mutate_loop_ok entries [] hall]
      simp [Except.map]

theorem claim_C4_witness :
    handle_mutate_response [("other", JValue.num 1)] = .ok .succ
    ∧ (∃ e, handle_mutate_response
        [("mutate_response", JValue.arr [JValue.obj [("response_code", JValue.str "ERROR")]])]
        = .error e)
    ∧ handle_mutate_response
        [("mutate_response", JValue.arr
          [JValue.obj [("response_code", JValue.str "OK"), ("id", JValue.str "a")],
           JValue.obj [("response_code", JValue.str "OK"), ("id", JValue.str "b")]])]
        = .ok (.ids [JValue.str "a", JValue.str "b"]) := by
  refine ⟨(claim_C4 [("other", JValue.num 1)]).1 rfl, ?_, ?_⟩
  · exact ((claim_C4
        [("mutate_response", JValue.arr [JValue.obj [("response_code", JValue.str "ERROR")]])]).2
        [JValue.obj [("response_code", JValue.str "ERROR")]] rfl).1
      ⟨JValue.obj [("response_code", JValue.str "ERROR")], List.Mem.head _, by
        simp [entry_code]⟩
  · exact ((claim_C4
        [("mutate_response", JValue.arr
          [JValue.obj [("response_code", JValue.str "OK"), ("id", JValue.str "a")],
           JValue.obj [("response_code", JValue.str "OK"), ("id", JValue.str "b")]])]).2
        [JValue.obj [("response_code", JValue.str "OK"), ("id", JValue.str "a")],
         JValue.obj [("response_code", JValue.str "OK"), ("id", JValue.str "b")]] rfl).2 (by
      intro m hm
      simp only [List.mem_cons, List.not_mem_nil, or_false] at hm
      rcases hm with rfl | rfl <;> rfl)

/-- Claim C5: the kind dispatch is total over the six supported kinds,
raises for every unrecognized kind value, and a track-list response
makes the tracks decoder return the list of item records rather than the
list wrapper. -/
theorem claim_C5 :
    (∀ mt : SJModelType, kind_to_model (.str (model_kind mt)) = .ok mt)
    ∧ (∀ v : JValue, (∀ mt : SJModelType, v ≠ .str (model_kind mt)) →
        kind_to_model v = .error "ValueError")
    ∧ (∀ (l : List JValue) (rest : List (String × JValue)),
        tracks_obj (.obj (("kind", .str (model_kind .trackList))
            :: ("items", .arr l) :: rest))
          = .ok (some (.items l))) := by
  refine ⟨fun mt => by cases mt <;> rfl, ?_, fun l rest => rfl⟩
  intro v h
  cases v with
  | str s =>
    have h1 : s ≠ model_kind .track := fun hs => h .track (by rw [hs])
    have h2 : s ≠ model_kind .trackList := fun hs => h .trackList (by rw [hs])
    have h3 : s ≠ model_kind .playlist := fun hs => h .playlist (by rw [hs])
    have h4 : s ≠ model_kind .playlistList := fun hs => h .playlistList (by rw [hs])
    have h5 : s ≠ model_kind .playlistEntry := fun hs => h .playlistEntry (by rw [hs])
    have h6 : s ≠ model_kind .playlistEntryList := fun hs => h .playlistEntryList (by rw [hs])
    simp [kind_to_model, h1, h2, h3, h4, h5, h6]
  | null => rfl
  | bool b => rfl
  | num n => rfl
  | arr l => rfl
  | obj o => rfl

theorem claim_C5_witness :
    kind_to_model (.str "sj#bogus") = .error "ValueError" :=
  claim_C5.2.1 (.str "sj#bogus") (by intro mt; cases mt <;> simp [model_kind])

/-- Claim C10: a recognized kind belonging to a different entity family
than the decoder invoked makes the decoder silently return none instead
of raising. -/
theorem claim_C10 (jsdata : JValue) (k : String)
    (hk : jget jsdata "kind" = .ok (.str k))
    (hsup : k ∈ supported_kinds) :
    (k ∉ [model_kind .track, model_kind .trackList] →
      tracks_obj jsdata = .ok none)
    ∧ (k ∉ [model_kind .playlist, model_kind .playlistList] →
      playlists_obj jsdata = .ok none)
    ∧ (k ∉ [model_kind .playlistEntry, model_kind .playlistEntryList] →
      playlist_entries_obj jsdata = .ok none) := by
  simp only [supported_kinds, List.map_cons, List.map_nil, List.mem_cons,
    List.not_mem_nil, or_false, model_kind] at hsup
  rcases hsup with rfl | rfl | rfl | rfl | rfl | rfl <;>
    refine ⟨fun h => ?_, fun h => ?_, fun h => ?_⟩ <;>
    first
      | (unfold tracks_obj; rw [hk]; rfl)
      | (unfold playlists_obj; rw [hk]; rfl)
      | (unfold playlist_entries_obj; rw [hk]; rfl)
      | exact absurd (by simp [model_kind]) h

theorem claim_C10_witness :
    tracks_obj (.obj [("kind", .str "sj#playlist")]) = .ok none
    ∧ playlists_obj (.obj [("kind", .str "sj#track")]) = .ok none
    ∧ playlist_entries_obj (.obj [("kind", .str "sj#track")]) = .ok none :=
  ⟨(claim_C10 (.obj [("kind", .str "sj#playlist")]) "sj#playlist" rfl (by decide)).1
      (by decide),
   (claim_C10 (.obj [("kind", .str "sj#track")]) "sj#track" rfl (by decide)).2.1
      (by decide),
   (claim_C10 (.obj [("kind", .str "sj#track")]) "sj#track" rfl (by decide)).2.2
      (by decide)⟩
/-- Claim C7: the claim says a file is accepted iff its extension is a
member of the supported set containing exactly "mp3".  Because
`supported_filetypes` lacks a trailing comma it is the string "mp3" and
the membership test is a substring test, so extensions such as "p3" and
the empty extension are also accepted (code bug: the neighbouring
comment says only mp3 is supported). -/
theorem claim_C7_eval :
    check_filetype "song.mp3" = .ok ()
    ∧ check_filetype "song.ogg" = .error "UnsupportedFiletype"
    ∧ check_filetype "song.p3" = .ok ()
    ∧ check_filetype "song." = .ok () :=
  ⟨rfl, rfl, rfl, rfl⟩

theorem py_join_colon_five (a b c d e : List Char) :
    (py_join_colon [a, b, c, d, e]).length =
      a.length + b.length + c.length + d.length + e.length + 4 := by
  simp [py_join_colon]
  omega

/-- Claim C8 counterexample: for the 48-bit hardware address
0x123456789abc the code produces the five-octet string "12:34:56:78:9a",
not the six-octet normalization "12:34:56:78:9a:bc" the claim
describes. -/
theorem claim_C8_counterexample :
    mac_string 0x123456789abc
      = ['1', '2', ':', '3', '4', ':', '5', '6', ':', '7', '8', ':', '9', 'a']
    ∧ mac_string 0x123456789abc
      ≠ ['1', '2', ':', '3', '4', ':', '5', '6', ':', '7', '8', ':', '9', 'a', ':', 'b', 'c'] := by
  constructor
  · decide
  · decide

/-- Claim C8 amended: the client hardware-address string is the
colon-join of the five two-character slices at offsets 0, 2, 4, 6, 8 of
the hex representation of the MAC stripped of its `0x` prefix and final
character — at most five octets (length at most 14), never the six
octets of the claim. -/
theorem mac_join_le (d : List Char) :
    (py_join_colon ([0, 2, 4, 6, 8].map (py_slice2 d))).length ≤ 14 := by
  have hs : ∀ x : Nat, (py_slice2 d x).length ≤ 2 :=
    fun x => List.length_take_le 2 (d.drop x)
  simp only [List.map_cons, List.map_nil]
  rw [py_join_colon_five]
  have h0 := hs 0
  have h2 := hs 2
  have h4 := hs 4
  have h6 := hs 6
  have h8 := hs 8
  omega

/-- Claim C8 amended: the client hardware-address string is the
colon-join of the five two-character slices at offsets 0, 2, 4, 6, 8 of
the hex representation of the MAC stripped of its `0x` prefix and final
character — at most five octets (length at most 14), never the six
octets (length 17) of the claim. -/
theorem claim_C8_amended :
    mac_string 0x123456789abc
      = ['1', '2', ':', '3', '4', ':', '5', '6', ':', '7', '8', ':', '9', 'a']
    ∧ ∀ n : Nat, (mac_string n).length ≤ 14 := by
  refine ⟨by decide, ?_⟩
  intro n
  exact mac_join_le _

theorem sessions_aux_shape :
    ∀ (ups : List Upload) (filemap : List (String × String)) (total : Nat)
      (fileinfo : String → UploadFile) (mac : String)
      (sessions : List (String × String × List SessionField)),
    sessions_aux filemap total fileinfo mac ups = .ok sessions →
    ∀ s ∈ sessions, ∃ upload ∈ ups,
      filemap.lookup upload.id = some s.1
      ∧ s.2.1 = upload.serverId
      ∧ s.2.2 = session_fields upload total (fileinfo s.1) mac := by
  intro ups
  induction ups with
  | nil =>
    intro filemap total fileinfo mac sessions h s hs
    simp only [sessions_aux] at h
    cases h
    exact absurd hs (List.not_mem_nil s)
  | cons upload rest ih =>
    intro filemap total fileinfo mac sessions h s hs
    simp only [sessions_aux] at h
    cases hlk : filemap.lookup upload.id with
    | none => rw [hlk] at h; cases h
    | some filename =>
      rw [hlk] at h
      cases hrec : sessions_aux filemap total fileinfo mac rest with
      | error e => rw [hrec] at h; cases h
      | ok sessions2 =>
        rw [hrec] at h
        cases h
        rcases List.mem_cons.mp hs with rfl | hs2
        · exact ⟨upload, List.mem_cons_self _ _, hlk, rfl, rfl⟩
        · obtain ⟨u, hu, hc⟩ := ih filemap total fileinfo mac sessions2 hrec s hs2
          exact ⟨u, List.mem_cons_of_mem _ hu, hc⟩

/-- Claim C9 counterexample: the `inlined` dictionary of lines 750-761
has ten entries (the enumeration in the claim misses the sync-now flag), so a
concrete upload-session payload carries ten inlined fields, not nine. -/
theorem claim_C9_counterexample :
    ((session_fields ⟨"cid", "sid"⟩ 1 ⟨"a.mp3", "/x/a.mp3", 100, "T", 128⟩ "aa:bb").filter
      (fun fld => !fld.isExternal)).length = 10
    ∧ ((session_fields ⟨"cid", "sid"⟩ 1 ⟨"a.mp3", "/x/a.mp3", 100, "T", 128⟩ "aa:bb").filter
      (fun fld => !fld.isExternal)).length ≠ 9 :=
  ⟨rfl, by decide⟩

/-- Claim C9 amended: every upload-session payload contains exactly one
external field carrying the basename, absolute path and size,
plus exactly ten inlined key/value fields (the nine the claim enumerates
and the sync-now flag), every inlined content being the `str()` form of
its value. -/
theorem claim_C9_amended :
    ∀ (filemap : List (String × String)) (uploads : List Upload)
      (fileinfo : String → UploadFile) (mac : String)
      (sessions : List (String × String × List SessionField)),
    make_upload_session_requests filemap uploads fileinfo mac = .ok sessions →
    ∀ s ∈ sessions, ∃ upload ∈ uploads,
      s.2.2 = session_fields upload uploads.length (fileinfo s.1) mac
      ∧ (s.2.2).filter SessionField.isExternal
          = [.external (fileinfo s.1).basename (fileinfo s.1).abspath (fileinfo s.1).size]
      ∧ (s.2.2).filter (fun fld => !fld.isExternal)
          = (inlined_values upload uploads.length (fileinfo s.1) mac).map
              (fun kv => SessionField.inlined (py_str kv.2) kv.1)
      ∧ ((s.2.2).filter (fun fld => !fld.isExternal)).length = 10 := by
  intro filemap uploads fileinfo mac sessions h s hs
  obtain ⟨upload, hu, _, _, hfields⟩ :=
    sessions_aux_shape uploads filemap uploads.length fileinfo mac sessions h s hs
  refine ⟨upload, hu, hfields, ?_, ?_, ?_⟩ <;> rw [hfields] <;> rfl

theorem claim_C9_witness :
    ∃ upload ∈ [Upload.mk "cid" "sid"],
      session_fields ⟨"cid", "sid"⟩ 1 (UploadFile.mk "a.mp3" "/x/a.mp3" 100 "T" 128) "aa:bb"
        = session_fields upload 1 (UploadFile.mk "a.mp3" "/x/a.mp3" 100 "T" 128) "aa:bb"
      ∧ (session_fields ⟨"cid", "sid"⟩ 1 (UploadFile.mk "a.mp3" "/x/a.mp3" 100 "T" 128) "aa:bb").filter
          SessionField.isExternal = [.external "a.mp3" "/x/a.mp3" 100]
      ∧ (session_fields ⟨"cid", "sid"⟩ 1 (UploadFile.mk "a.mp3" "/x/a.mp3" 100 "T" 128) "aa:bb").filter
          (fun fld => !fld.isExternal)
          = (inlined_values (Upload.mk "cid" "sid") 1
              (UploadFile.mk "a.mp3" "/x/a.mp3" 100 "T" 128) "aa:bb").map
              (fun kv => SessionField.inlined (py_str kv.2) kv.1)
      ∧ ((session_fields ⟨"cid", "sid"⟩ 1 (UploadFile.mk "a.mp3" "/x/a.mp3" 100 "T" 128) "aa:bb").filter
          (fun fld => !fld.isExternal)).length = 10 := by
  simpa using claim_C9_amended [("cid", "a.mp3")] [Upload.mk "cid" "sid"]
    (fun _ => UploadFile.mk "a.mp3" "/x/a.mp3" 100 "T" 128) "aa:bb"
    [("a.mp3", "sid",
      session_fields ⟨"cid", "sid"⟩ 1 (UploadFile.mk "a.mp3" "/x/a.mp3" 100 "T" 128) "aa:bb")]
    rfl
    ("a.mp3", "sid",
      session_fields ⟨"cid", "sid"⟩ 1 (UploadFile.mk "a.mp3" "/x/a.mp3" 100 "T" 128) "aa:bb")
    (List.Mem.head _)
